import Mathlib

set_option linter.unusedVariables false

/-!
Shallow embedding of the Tegra graphics-host automatic clock management
engine (`drivers/video/tegra/host/nvhost_acm.c`).

The power coordinator (`nvhost_module_busy`, `nvhost_module_idle_mult`,
`powerdown_handler`, `nvhost_module_suspend`, `nvhost_module_get_rate`) is
modelled as a pure state transformer over a chain of modules
(`List NvMod`, head = the module itself, tail = its ancestor chain,
following the `mod->parent` links).  Every call into an external primitive
(mutex, clocks, power gates, deferred work, wait queues, hooks) is recorded
as an `Event` in an emitted trace, so that claims about which primitives and
hooks run, and in which lock region they run, can be stated over the trace.

`BUG_ON` is modelled by returning `none`: a `none` result is a fatal abort.

The client rate registry (`nvhost_module_add_client`,
`nvhost_module_set_rate`, `nvhost_module_remove_client`,
`nvhost_module_update_rate`) is modelled separately over `RegModule`, with
the external `clk_round_rate` primitive as an abstract function field and
`clk_set_rate` recorded as a `clkSetRateEv` event and mirrored into the
`applied` list.
-/

namespace NvhostAcm

inductive Event where
  | lockEv (m : Nat)
  | unlockEv (m : Nat)
  | cancelEv (m : Nat)
  | busyHookEv (m : Nat)
  | ungateEv (m : Nat) (g : Nat)
  | gateEv (m : Nat) (g : Nat)
  | clkEnableEv (m : Nat) (i : Nat)
  | clkDisableEv (m : Nat) (i : Nat)
  | finalizePoweronEv (m : Nat)
  | preparePoweroffEv (m : Nat)
  | scheduleEv (m : Nat) (delay : Nat)
  | wakeEv (m : Nat)
  | idleHookEv (m : Nat)
  | suspendHookEv (m : Nat)
  | debugNotIdleEv (m : Nat)
  | debugDumpEv (m : Nat)
  | clkSetRateEv (i : Nat) (r : Nat)
  deriving DecidableEq, Repr

/-- The immutable `nvhost_moduledesc`: hook presence flags, power-gate ids
(`none` models the id `-1`), the power-down delay and the clock count. -/
structure ModuleDesc where
  hasBusyHook : Bool
  hasIdleHook : Bool
  hasPrepare : Bool
  hasFinalize : Bool
  hasSuspendHook : Bool
  canPowergate : Bool
  pgid0 : Option Nat
  pgid1 : Option Nat
  powerdownDelay : Nat
  numClks : Nat
  deriving DecidableEq, Repr

/-- The mutable per-module state guarded by `mod->lock`: the (signed)
reference count, the `powered` flag and whether a deferred power-down work
item is currently pending. -/
structure ModState where
  refcount : Int
  powered : Bool
  workPending : Bool
  deriving DecidableEq, Repr

/-- One `nvhost_module`: an id (to tag its events), its descriptor, its
mutable state and its clock array (`none` models a NULL/IS_ERR handle; a
`some r` clock currently runs at rate `r`). The parent link is represented
by the tail of the chain the module heads. -/
structure NvMod where
  mid : Nat
  desc : ModuleDesc
  st : ModState
  clk : List (Option Nat)
  deriving DecidableEq, Repr

/-- `unpowergate`: un-gate each configured partition when gateable. -/
def unpowergate (m : NvMod) : List Event :=
  if m.desc.canPowergate then
    (match m.desc.pgid0 with | some g => [Event.ungateEv m.mid g] | none => []) ++
    (match m.desc.pgid1 with | some g => [Event.ungateEv m.mid g] | none => [])
  else []

/-- `powergate`: gate each configured partition when gateable. -/
def powergate (m : NvMod) : List Event :=
  if m.desc.canPowergate then
    (match m.desc.pgid0 with | some g => [Event.gateEv m.mid g] | none => []) ++
    (match m.desc.pgid1 with | some g => [Event.gateEv m.mid g] | none => [])
  else []

/-- `clock_enable`: `clk_enable` on every clock of the module in order. -/
def clock_enable (m : NvMod) : List Event :=
  (List.range m.desc.numClks).map (fun i => Event.clkEnableEv m.mid i)

/-- `clock_disable`: `clk_disable` on every clock of the module in order. -/
def clock_disable (m : NvMod) : List Event :=
  (List.range m.desc.numClks).map (fun i => Event.clkDisableEv m.mid i)

/-- `nvhost_module_busy` on a chain (module consed onto its ancestors):
lock; cancel any pending power-down work; run the optional busy hook;
increment the refcount; when the incremented count is 1 and the module is
not powered, recursively mark the parent busy, un-gate, enable clocks, run
the optional finalize-power-on hook and set `powered`; unlock. -/
def nvhost_module_busy : List NvMod → List NvMod × List Event
  | [] => ([], [])
  | m :: rest =>
    let pre : List Event :=
      [Event.lockEv m.mid, Event.cancelEv m.mid] ++
      (if m.desc.hasBusyHook then [Event.busyHookEv m.mid] else [])
    let newCount : Int := m.st.refcount + 1
    if newCount = 1 ∧ m.st.powered = false then
      let pr := nvhost_module_busy rest
      ({ m with st := { refcount := newCount, powered := true, workPending := false } } :: pr.1,
       pre ++ pr.2 ++ unpowergate m ++ clock_enable m ++
         (if m.desc.hasFinalize then [Event.finalizePoweronEv m.mid] else []) ++
         [Event.unlockEv m.mid])
    else
      ({ m with st := { m.st with refcount := newCount, workPending := false } } :: rest,
       pre ++ [Event.unlockEv m.mid])

/-- `nvhost_module_idle_mult`: lock; subtract `refs` from the refcount; when
the result is exactly 0, `BUG_ON(!mod->powered)` (modelled as `none`),
schedule the deferred power-down with the descriptor's delay, unlock, wake
the idle wait queue and run the optional idle hook outside the lock.  A
result other than 0 — including a negative one — just stores the new count
and unlocks. -/
def nvhost_module_idle_mult : List NvMod → Int → Option (List NvMod × List Event)
  | [], _ => some ([], [])
  | m :: rest, refs =>
    let newCount : Int := m.st.refcount - refs
    if newCount = 0 then
      if m.st.powered = false then
        none
      else
        some ({ m with st := { m.st with refcount := 0, workPending := true } } :: rest,
          [Event.lockEv m.mid, Event.scheduleEv m.mid m.desc.powerdownDelay,
           Event.unlockEv m.mid, Event.wakeEv m.mid] ++
          (if m.desc.hasIdleHook then [Event.idleHookEv m.mid] else []))
    else
      some ({ m with st := { m.st with refcount := newCount } } :: rest,
        [Event.lockEv m.mid, Event.unlockEv m.mid])

/-- `nvhost_module_idle`: `nvhost_module_idle_mult(mod, 1)`. -/
def nvhost_module_idle (ch : List NvMod) : Option (List NvMod × List Event) :=
  nvhost_module_idle_mult ch 1

/-- The body of the deferred power-down callback `powerdown_handler`.
`stillBusy` is the value returned by the `prepare_poweroff` hook when that
hook exists.  Lock; when the refcount is 0 and the module powered: a
refusing hook reschedules the work (after unlocking) and returns; otherwise
clocks are disabled, partitions gated, `powered` cleared and — still before
this module's unlock — `nvhost_module_idle` is called on the parent chain.
When the refcount is nonzero or the module unpowered, only lock/unlock
happen. -/
def powerdown_handler : List NvMod → Bool → Option (List NvMod × List Event)
  | [], _ => some ([], [])
  | m :: rest, stillBusy =>
    if m.st.refcount = 0 ∧ m.st.powered = true then
      if m.desc.hasPrepare = true ∧ stillBusy = true then
        some ({ m with st := { m.st with workPending := true } } :: rest,
          [Event.lockEv m.mid, Event.preparePoweroffEv m.mid, Event.unlockEv m.mid,
           Event.scheduleEv m.mid m.desc.powerdownDelay])
      else
        let prepEv : List Event :=
          if m.desc.hasPrepare then [Event.preparePoweroffEv m.mid] else []
        match nvhost_module_idle rest with
        | none => none
        | some pr =>
          some ({ m with st := { m.st with powered := false } } :: pr.1,
            [Event.lockEv m.mid] ++ prepEv ++ clock_disable m ++ powergate m ++
              pr.2 ++ [Event.unlockEv m.mid])
    else
      some (m :: rest, [Event.lockEv m.mid, Event.unlockEv m.mid])

/-- The `powered` flag of the head of a chain (`false` for an empty chain). -/
def headPowered : List NvMod → Bool
  | [] => false
  | m :: _ => m.st.powered

/-- The refcount of the head of a chain (`0` for an empty chain). -/
def headRefcount : List NvMod → Int
  | [] => 0
  | m :: _ => m.st.refcount

/-- The clock entry of the head of a chain at `index`. -/
def headClk (ch : List NvMod) (index : Nat) : Option Nat :=
  match ch with
  | [] => none
  | m :: _ => m.clk.getD index none

/-- `nvhost_module_get_rate`: `-EINVAL` (here `Except.error ()`) when the
clock handle at `index` is NULL or an error pointer, with nothing done;
otherwise mark the module busy, read the live clock rate, mark it idle
again and return the rate. -/
def nvhost_module_get_rate (m : NvMod) (rest : List NvMod) (index : Nat) :
    Option (List NvMod × List Event × Except Unit Nat) :=
  match m.clk.getD index none with
  | none => some (m :: rest, [], Except.error ())
  | some _ =>
    let br := nvhost_module_busy (m :: rest)
    let rate : Nat := (headClk br.1 index).getD 0
    match nvhost_module_idle br.1 with
    | none => none
    | some ir => some (ir.1, br.2 ++ ir.2, Except.ok rate)

/-- `nvhost_module_suspend`.  The wait with timeout cannot observe other
threads in this sequential model: a zero refcount satisfies the wait at
once, a nonzero one is modelled as the timeout case, which only emits the
diagnostic dump and proceeds.  `flush_delayed_work` runs the pending
handler body to completion when one is pending (`stillBusy` feeds its
`prepare_poweroff` hook).  The final `BUG_ON(mod->powered)` is `none`. -/
def nvhost_module_suspend (m : NvMod) (rest : List NvMod) (system stillBusy : Bool) :
    Option (List NvMod × List Event) :=
  match (if m.st.workPending then
           powerdown_handler ({ m with st := { m.st with workPending := false } } :: rest) stillBusy
         else
           some (m :: rest, [])) with
  | none => none
  | some fr =>
    if headPowered fr.1 = true then
      none
    else
      some (fr.1,
        (if system = true ∧ ¬ m.st.refcount = 0 then [Event.debugNotIdleEv m.mid] else []) ++
        (if ¬ m.st.refcount = 0 then [Event.debugDumpEv m.mid] else []) ++
        fr.2 ++
        (if m.desc.hasSuspendHook then [Event.suspendHookEv m.mid] else []))

/-- Events through which a power-down becomes observable: the
prepare-power-off hook, a clock disable, a partition gate. -/
def isPowerOffEv : Event → Bool
  | Event.preparePoweroffEv _ => true
  | Event.clkDisableEv _ _ => true
  | Event.gateEv _ _ => true
  | _ => false

/-- The prefix of a trace strictly before the first `unlockEv c`: the events
issued while module `c`'s lock is held (for traces that start at `lockEv c`). -/
def beforeUnlock (c : Nat) : List Event → List Event
  | [] => []
  | e :: rest => if e = Event.unlockEv c then [] else e :: beforeUnlock c rest

/-- Module `p`'s lock is taken while module `c`'s lock is still held. -/
def parentLockedInsideChild (c p : Nat) (tr : List Event) : Prop :=
  Event.lockEv p ∈ beforeUnlock c tr

instance parentLockedInsideChildDec (c p : Nat) (tr : List Event) :
    Decidable (parentLockedInsideChild c p tr) :=
  inferInstanceAs (Decidable (Event.lockEv p ∈ beforeUnlock c tr))

/-- One refusal round of the deferred power-down callback: the trace of a
run whose `prepare_poweroff` hook reports still busy. -/
def refusalTr (m : NvMod) : List Event :=
  [Event.lockEv m.mid, Event.preparePoweroffEv m.mid, Event.unlockEv m.mid,
   Event.scheduleEv m.mid m.desc.powerdownDelay]

/-- Run the deferred power-down callback `j` times, the hook refusing each
time. -/
def runRefusals : List NvMod → Nat → Option (List NvMod × List Event)
  | ch, 0 => some (ch, [])
  | ch, j + 1 =>
    match powerdown_handler ch true with
    | none => none
    | some pr =>
      match runRefusals pr.1 j with
      | none => none
      | some qr => some (qr.1, pr.2 ++ qr.2)

/-- Run the deferred power-down callback `k + 1` times: `k` refusals
followed by one run whose hook permits the power-off. -/
def runPowerdownK (ch : List NvMod) (k : Nat) : Option (List NvMod × List Event) :=
  match runRefusals ch k with
  | none => none
  | some pr =>
    match powerdown_handler pr.1 false with
    | none => none
    | some qr => some (qr.1, pr.2 ++ qr.2)

/-! ## Client rate registry -/

/-- One `nvhost_module_client`: the identity token (`priv`) and one vote per
clock index (`kzalloc` zeroes the slots past `num_clks`, hence the default
`0` used by out-of-range lookups). -/
structure Client where
  priv : Nat
  rate : List Nat
  deriving DecidableEq, Repr

/-- The registry view of a module: its clock count, which clock handles are
non-NULL, the external `clk_round_rate` primitive per index, the
descriptor's default rate per index, the client list and the rate each
clock is currently set to (mirror of `clk_set_rate`). -/
structure RegModule where
  numClks : Nat
  clkOk : List Bool
  roundRate : Nat → Nat → Nat
  defaultRate : Nat → Nat
  clients : List Client
  applied : List Nat

/-- The fold of `nvhost_module_update_rate`: `rate = 0`, then
`rate = max(m->rate[index], rate)` over the client list. -/
def maxVote (clients : List Client) (index : Nat) : Nat :=
  clients.foldl (fun r c => max (c.rate.getD index 0) r) 0

/-- `nvhost_module_update_rate`: `-EINVAL` when the clock is NULL; else take
the maximum vote, fall back to the rounded default when that maximum is 0,
and `clk_set_rate` it. -/
def nvhost_module_update_rate (rm : RegModule) (index : Nat) :
    RegModule × List Event × Except Unit Unit :=
  if rm.clkOk.getD index false = false then
    (rm, [], Except.error ())
  else
    let r1 := maxVote rm.clients index
    let r2 := if r1 = 0 then rm.roundRate index (rm.defaultRate index) else r1
    ({ rm with applied := rm.applied.set index r2 },
     [Event.clkSetRateEv index r2], Except.ok ())

/-- Update the first client whose `priv` matches, leaving the rest alone. -/
def updateFirst : List Client → Nat → (Client → Client) → List Client
  | [], _, _ => []
  | c :: rest, p, f =>
    if c.priv = p then f c :: rest else c :: updateFirst rest p f

/-- Remove the first client whose `priv` matches (`list_del` after the
matching `list_for_each_entry` iteration). -/
def removeFirst : List Client → Nat → List Client
  | [], _ => []
  | c :: rest, p =>
    if c.priv = p then rest else c :: removeFirst rest p

/-- `nvhost_module_set_rate`: under the registry lock, store the rounded
requested rate as the matching client's vote for `index` (no-op when no
client matches), then recompute and reapply the rate for `index`. -/
def nvhost_module_set_rate (rm : RegModule) (priv rate index : Nat) :
    RegModule × List Event × Except Unit Unit :=
  let clients2 :=
    updateFirst rm.clients priv
      (fun c => { c with rate := c.rate.set index (rm.roundRate index rate) })
  nvhost_module_update_rate { rm with clients := clients2 } index

/-- `nvhost_module_add_client`: allocate a record whose vote for every clock
index is that clock's rounded default, and append it to the client list.
No rate is recomputed or reapplied here. -/
def nvhost_module_add_client (rm : RegModule) (priv : Nat) :
    RegModule × Except Unit Unit :=
  let votes := (List.range rm.numClks).map (fun i => rm.roundRate i (rm.defaultRate i))
  ({ rm with clients := rm.clients ++ [{ priv := priv, rate := votes }] },
   Except.ok ())

/-- The `for (i = 0; i < mod->num_clks; i++) nvhost_module_update_rate(mod, i)`
loop, over an explicit index list. -/
def updateAllRates : RegModule → List Nat → RegModule × List Event
  | rm, [] => (rm, [])
  | rm, i :: is =>
    let ur := nvhost_module_update_rate rm i
    let rec2 := updateAllRates ur.1 is
    (rec2.1, ur.2.1 ++ rec2.2)

/-- `nvhost_module_remove_client`.  After the `list_for_each_entry` loop the
cursor `m` is never NULL — when no record matched it points at the list
head itself (the node is the record's first field) — so the `if (m)` guard
is always taken: `kfree(m)` runs and the rate-update loop runs whether or
not a record was erased.  Heap effects of the stray `kfree` on a
non-matching call are outside this state model. -/
def nvhost_module_remove_client (rm : RegModule) (priv : Nat) :
    RegModule × List Event :=
  updateAllRates { rm with clients := removeFirst rm.clients priv }
    (List.range rm.numClks)

/-- The reduction rule the registry is meant to maintain, as the code
computes it: the maximum vote when that maximum is nonzero, otherwise the
rounded default. -/
def maxVoteOrDefault (rm : RegModule) (clients : List Client) (index : Nat) : Nat :=
  if maxVote clients index = 0 then rm.roundRate index (rm.defaultRate index)
  else maxVote clients index

/-! ## Concrete instances used by counterexamples and witnesses -/

/-- A descriptor with no hooks, no gateable domain and no clocks. -/
def dPlain : ModuleDesc :=
  { hasBusyHook := false, hasIdleHook := false, hasPrepare := false,
    hasFinalize := false, hasSuspendHook := false, canPowergate := false,
    pgid0 := none, pgid1 := none, powerdownDelay := 0, numClks := 0 }

/-- A powered module with refcount 1 (input of the C1 counterexample). -/
def c1mod : NvMod := { mid := 0, desc := dPlain, st := { refcount := 1, powered := true, workPending := false }, clk := [] }

/-- A registry module with one client (token 5) voting 20 on its only
clock; the C2 input whose removal token (7) matches nothing. -/
def c2rm : RegModule :=
  { numClks := 1, clkOk := [true], roundRate := fun _ r => r,
    defaultRate := fun _ => 10, clients := [{ priv := 5, rate := [20] }],
    applied := [20] }

/-- An active module (refcount 2) on which the power-down callback races. -/
def c7mod : NvMod := { mid := 3, desc := dPlain, st := { refcount := 2, powered := true, workPending := true }, clk := [] }

/-- A registry module whose only clock slot has a NULL handle. -/
def c10rm : RegModule :=
  { numClks := 1, clkOk := [false], roundRate := fun _ r => r,
    defaultRate := fun _ => 10, clients := [], applied := [0] }

/-- A registry module with one clock (default rate 10, identity rounding)
and no clients yet (start of the C5 counterexample scenario). -/
def c5m0 : RegModule :=
  { numClks := 1, clkOk := [true], roundRate := fun _ r => r,
    defaultRate := fun _ => 10, clients := [], applied := [10] }

/-- After `add_client(0)`: client 0 votes the rounded default 10. -/
def c5m1 : RegModule := (nvhost_module_add_client c5m0 0).1

/-- After `set_rate(0, 5, clock 0)`: client 0 votes 5 and the clock is set
to 5. -/
def c5m2 : RegModule := (nvhost_module_set_rate c5m1 0 5 0).1

/-- After `add_client(1)`: client 1 votes the rounded default 10 — but
`add_client` reapplies nothing, leaving the clock at 5. -/
def c5m3 : RegModule := (nvhost_module_add_client c5m2 1).1

/-- A registry module with two clocks and one client (C5 witness input). -/
def c5w : RegModule :=
  { numClks := 2, clkOk := [true, true], roundRate := fun _ r => r,
    defaultRate := fun _ => 10, clients := [{ priv := 1, rate := [10, 10] }],
    applied := [10, 10] }

/-- An unpowered idle module with a finalize-power-on and a busy hook, one
clock and a gateable partition (C3 witness input). -/
def m3 : NvMod :=
  { mid := 7,
    desc := { hasBusyHook := true, hasIdleHook := false, hasPrepare := false,
              hasFinalize := true, hasSuspendHook := false, canPowergate := true,
              pgid0 := some 4, pgid1 := none, powerdownDelay := 25, numClks := 1 },
    st := { refcount := 0, powered := true, workPending := false }, clk := [some 100] }

/-- A child module ripe for power-down: refcount 0, powered, one clock, a
gateable partition, no prepare-power-off hook. -/
def c4c : NvMod :=
  { mid := 0,
    desc := { hasBusyHook := false, hasIdleHook := false, hasPrepare := false,
              hasFinalize := false, hasSuspendHook := false, canPowergate := true,
              pgid0 := some 8, pgid1 := none, powerdownDelay := 10, numClks := 1 },
    st := { refcount := 0, powered := true, workPending := false }, clk := [some 100] }

/-- The parent of `c4c`: powered, holding the one reference the child's
power-up took. -/
def c4p : NvMod :=
  { mid := 1, desc := dPlain, st := { refcount := 1, powered := true, workPending := false }, clk := [] }

/-- What `nvhost_module_idle` produces on `[c4p]`. -/
def c4pr : List NvMod × List Event :=
  ([{ mid := 1, desc := dPlain, st := { refcount := 0, powered := true, workPending := true }, clk := [] }],
   [Event.lockEv 1, Event.scheduleEv 1 0, Event.unlockEv 1, Event.wakeEv 1])

/-- A module ripe for power-down whose prepare-power-off hook exists (C6
witness input). -/
def m6 : NvMod :=
  { mid := 0,
    desc := { hasBusyHook := false, hasIdleHook := false, hasPrepare := true,
              hasFinalize := false, hasSuspendHook := false, canPowergate := true,
              pgid0 := some 3, pgid1 := none, powerdownDelay := 50, numClks := 1 },
    st := { refcount := 0, powered := true, workPending := true }, clk := [some 100] }

/-- The parent of `m6`. -/
def p6 : NvMod :=
  { mid := 1, desc := dPlain, st := { refcount := 1, powered := true, workPending := false }, clk := [] }

/-- What `nvhost_module_idle` produces on `[p6]`. -/
def pr6 : List NvMod × List Event :=
  ([{ mid := 1, desc := dPlain, st := { refcount := 0, powered := true, workPending := true }, clk := [] }],
   [Event.lockEv 1, Event.scheduleEv 1 0, Event.unlockEv 1, Event.wakeEv 1])

/-- An idle, unpowered module with a pending work item and a suspend hook
(C8 witness input). -/
def m8 : NvMod :=
  { mid := 2,
    desc := { hasBusyHook := false, hasIdleHook := false, hasPrepare := true,
              hasFinalize := false, hasSuspendHook := true, canPowergate := true,
              pgid0 := some 5, pgid1 := none, powerdownDelay := 10, numClks := 2 },
    st := { refcount := 0, powered := false, workPending := true }, clk := [some 1, some 2] }

/-- An idle, unpowered module with one valid clock at rate 5 (C9 witness
input). -/
def cl9 : NvMod :=
  { mid := 4,
    desc := { hasBusyHook := false, hasIdleHook := true, hasPrepare := false,
              hasFinalize := true, hasSuspendHook := false, canPowergate := false,
              pgid0 := none, pgid1 := none, powerdownDelay := 30, numClks := 1 },
    st := { refcount := 0, powered := false, workPending := false }, clk := [some 5] }

/-! ## Shared lemmas -/

/-- The power-down callback body does nothing but lock/unlock when the
refcount is nonzero or the module is unpowered. -/
lemma powerdown_handler_noop (m : NvMod) (rest : List NvMod) (still : Bool)
    (h : ¬ (m.st.refcount = 0 ∧ m.st.powered = true)) :
    powerdown_handler (m :: rest) still =
      some (m :: rest, [Event.lockEv m.mid, Event.unlockEv m.mid]) := by
  rw [powerdown_handler, if_neg h]

/-- `nvhost_module_busy` keeps the module at the head of the chain: its
refcount is incremented, it ends powered unless it was unpowered with a
nonzero pre-increment refcount, and its clock array is untouched. -/
lemma busy_parts (m : NvMod) (rest : List NvMod) :
    ∃ hd tl, (nvhost_module_busy (m :: rest)).1 = hd :: tl ∧
      hd.st.refcount = m.st.refcount + 1 ∧
      hd.st.powered = (m.st.powered || decide (m.st.refcount = 0)) ∧
      hd.clk = m.clk := by
  by_cases hc : (m.st.refcount + 1 = 1 ∧ m.st.powered = false)
  · have h0 : m.st.refcount = 0 := by have := hc.1; omega
    refine ⟨{ m with st := { refcount := m.st.refcount + 1, powered := true, workPending := false } },
      (nvhost_module_busy rest).1, ?_, rfl, ?_, rfl⟩
    · simp [nvhost_module_busy, hc]
    · simp [h0, hc.2]
  · have hc2 : ¬ (m.st.refcount = 0 ∧ m.st.powered = false) :=
      fun hx => hc ⟨by have := hx.1; omega, hx.2⟩
    refine ⟨{ m with st := { m.st with refcount := m.st.refcount + 1, workPending := false } },
      rest, ?_, rfl, ?_, rfl⟩
    · simp [nvhost_module_busy, hc2]
    · by_cases hp : m.st.powered = true
      · simp [hp]
      · have hp' : m.st.powered = false := by revert hp; cases m.st.powered <;> simp
        have h1 : ¬ m.st.refcount = 0 := fun h0 => hc ⟨by omega, hp'⟩
        simp [hp', h1]

/-- `nvhost_module_idle` on a powered head never aborts and decrements the
head refcount by one. -/
lemma idle_of_cons (hd : NvMod) (tl : List NvMod) (hpow : hd.st.powered = true) :
    ∃ ch2 e2, nvhost_module_idle (hd :: tl) = some (ch2, e2) ∧
      headRefcount ch2 = hd.st.refcount - 1 := by
  unfold nvhost_module_idle
  rw [nvhost_module_idle_mult]
  by_cases h0 : hd.st.refcount - 1 = 0
  · rw [if_pos h0, if_neg (by simp [hpow])]
    refine ⟨_, _, rfl, ?_⟩
    simp [headRefcount]
    omega
  · rw [if_neg h0]
    exact ⟨_, _, rfl, by simp [headRefcount]⟩

/-- Under the reachable-state invariant (powered, or refcount 0), the head
of the chain is powered right after `nvhost_module_busy`. -/
lemma busy_head_powered (m : NvMod) (rest : List NvMod)
    (hInv : m.st.powered = true ∨ m.st.refcount = 0) :
    headPowered (nvhost_module_busy (m :: rest)).1 = true := by
  obtain ⟨hd, tl, hsh, _, hpw, _⟩ := busy_parts m rest
  rw [hsh]
  show hd.st.powered = true
  rcases hInv with hp | h0
  · rw [hpw, hp]; simp
  · rw [hpw, h0]; simp

/-- Under the reachable-state invariant, `idle` right after `busy` cannot
abort and restores the head refcount. -/
lemma idle_after_busy (m : NvMod) (rest : List NvMod)
    (hInv : m.st.powered = true ∨ m.st.refcount = 0) :
    ∃ ch2 e2, nvhost_module_idle (nvhost_module_busy (m :: rest)).1 = some (ch2, e2) ∧
      headRefcount ch2 = m.st.refcount := by
  obtain ⟨hd, tl, hsh, hrc, hpw, _⟩ := busy_parts m rest
  have hpow : hd.st.powered = true := by
    rcases hInv with hp | h0
    · rw [hpw, hp]; simp
    · rw [hpw, h0]; simp
  obtain ⟨ch2, e2, hid, hcnt⟩ := idle_of_cons hd tl hpow
  rw [hsh]
  exact ⟨ch2, e2, hid, by rw [hcnt, hrc]; omega⟩

/-- `nvhost_module_busy` does not change the head's clock array. -/
lemma busy_headClk (m : NvMod) (rest : List NvMod) (index : Nat) :
    headClk (nvhost_module_busy (m :: rest)).1 index = m.clk.getD index none := by
  obtain ⟨hd, tl, hsh, _, _, hclk⟩ := busy_parts m rest
  rw [hsh]
  show hd.clk.getD index none = m.clk.getD index none
  rw [hclk]

/-- The trace of `nvhost_module_idle_mult` starts by taking the module's
lock. -/
lemma idle_mult_trace_head (m : NvMod) (rest : List NvMod) (refs : Int)
    (pr : List NvMod × List Event)
    (h : nvhost_module_idle_mult (m :: rest) refs = some pr) :
    ∃ t, pr.2 = Event.lockEv m.mid :: t := by
  rw [nvhost_module_idle_mult] at h
  by_cases h0 : m.st.refcount - refs = 0
  · rw [if_pos h0] at h
    by_cases hp : m.st.powered = false
    · rw [if_pos hp] at h
      exact absurd h (by simp)
    · rw [if_neg hp] at h
      injection h with h2
      refine ⟨[Event.scheduleEv m.mid m.desc.powerdownDelay, Event.unlockEv m.mid,
        Event.wakeEv m.mid] ++ (if m.desc.hasIdleHook then [Event.idleHookEv m.mid] else []), ?_⟩
      rw [← h2]
      rfl
  · rw [if_neg h0] at h
    injection h with h2
    exact ⟨[Event.unlockEv m.mid], by rw [← h2]⟩

/-- `beforeUnlock` passes over a prefix that holds no unlock of `c`. -/
lemma beforeUnlock_append (c : Nat) (l1 l2 : List Event)
    (h : Event.unlockEv c ∉ l1) :
    beforeUnlock c (l1 ++ l2) = l1 ++ beforeUnlock c l2 := by
  induction l1 with
  | nil => simp
  | cons e t ih =>
    have he : ¬ e = Event.unlockEv c := fun hx => h (hx ▸ List.mem_cons_self e t)
    rw [List.cons_append, beforeUnlock, if_neg he, ih (fun hx => h (List.mem_cons_of_mem e hx))]
    rfl

/-- No unlock event is ever a clock-disable event. -/
lemma unlock_notin_clock_disable (c : Nat) (m : NvMod) :
    Event.unlockEv c ∉ clock_disable m := by
  simp [clock_disable]

/-- No unlock event is ever a gate event. -/
lemma unlock_notin_powergate (c : Nat) (m : NvMod) :
    Event.unlockEv c ∉ powergate m := by
  unfold powergate
  split
  · rcases h0 : m.desc.pgid0 with _ | g0 <;> rcases h1 : m.desc.pgid1 with _ | g1 <;>
      simp [h0, h1]
  · simp

/-- No unlock event is ever a prepare-power-off hook event. -/
lemma unlock_notin_prep (c : Nat) (m : NvMod) :
    Event.unlockEv c ∉
      (if m.desc.hasPrepare then [Event.preparePoweroffEv m.mid] else []) := by
  split <;> simp

/-- One refusal round of the power-down callback: with refcount 0, powered,
an armed work item and a refusing prepare-power-off hook, the callback
re-arms and leaves the chain exactly as it was. -/
lemma refusal_step (m : NvMod) (rest : List NvMod)
    (hRc : m.st.refcount = 0) (hP : m.st.powered = true)
    (hPrep : m.desc.hasPrepare = true) (hW : m.st.workPending = true) :
    powerdown_handler (m :: rest) true = some (m :: rest, refusalTr m) := by
  rw [powerdown_handler, if_pos ⟨hRc, hP⟩, if_pos ⟨hPrep, rfl⟩]
  have hid : { m with st := { m.st with workPending := true } } = m := by
    cases m with
    | mk mid desc st clk => cases st; simp_all
  rw [hid]
  rfl

/-- Counting one refusal's reschedule. -/
lemma count_sched_refusalTr (m : NvMod) :
    (refusalTr m).count (Event.scheduleEv m.mid m.desc.powerdownDelay) = 1 := by
  simp [refusalTr]

/-- Any number of refusal rounds leaves the chain exactly as it was and
concatenates one refusal trace per round. -/
lemma runRefusals_fixed (m : NvMod) (rest : List NvMod)
    (hRc : m.st.refcount = 0) (hP : m.st.powered = true)
    (hPrep : m.desc.hasPrepare = true) (hW : m.st.workPending = true) :
    ∀ k, runRefusals (m :: rest) k =
      some (m :: rest, (List.replicate k (refusalTr m)).flatten) := by
  intro k
  induction k with
  | zero => simp [runRefusals]
  | succ k ih =>
    simp only [runRefusals, refusal_step m rest hRc hP hPrep hW, ih,
      List.replicate_succ, List.flatten_cons]

/-- `k` refusal rounds reschedule exactly `k` times. -/
lemma count_sched_join (m : NvMod) (k : Nat) :
    (List.replicate k (refusalTr m)).flatten.count
      (Event.scheduleEv m.mid m.desc.powerdownDelay) = k := by
  induction k with
  | zero => simp
  | succ k ih =>
    rw [List.replicate_succ, List.flatten_cons, List.count_append, ih,
      count_sched_refusalTr]
    omega

/-! ## Claims -/

/-- C1 (amended): `nvhost_module_idle_mult` aborts (`BUG_ON`) exactly when
the subtraction makes the refcount exactly zero while `powered` is false; a
subtraction whose result is negative is not detected. -/
theorem idle_mult_fatal_iff (m : NvMod) (rest : List NvMod) (refs : Int) :
    nvhost_module_idle_mult (m :: rest) refs = none ↔
      (m.st.refcount - refs = 0 ∧ m.st.powered = false) := by
  rw [nvhost_module_idle_mult]
  by_cases h : m.st.refcount - refs = 0
  · rw [if_pos h]
    by_cases hp : m.st.powered = false
    · simp [hp, h]
    · simp [hp, h]
  · simp [h]

/-- C1 counterexample: `idle(2)` on a powered module with refcount 1 drives
the count to `-1` without aborting, refuting the claim that a decrement
that would go negative fails fatally. -/
theorem idle_mult_underflow_not_fatal :
    c1mod.st.refcount - 2 < 0 ∧
    nvhost_module_idle_mult [c1mod] 2 =
      some ([{ mid := 0, desc := dPlain, st := { refcount := -1, powered := true, workPending := false }, clk := [] }],
        [Event.lockEv 0, Event.unlockEv 0]) := by
  constructor
  · decide
  · decide

/-- C2: calling `nvhost_module_remove_client` with a token matching no
record leaves the client list unchanged, yet the rate-update loop still
runs — it reissues `clk_set_rate` for the module's clock — because the
`if (m)` guard in the source is always true after `list_for_each_entry`. -/
theorem remove_client_no_match_still_updates :
    (nvhost_module_remove_client c2rm 7).2 = [Event.clkSetRateEv 0 20] ∧
    (nvhost_module_remove_client c2rm 7).1.clients = [{ priv := 5, rate := [20] }] ∧
    (nvhost_module_remove_client c2rm 7).1.applied = [20] := by
  refine ⟨?_, ?_, ?_⟩ <;> decide

/-- C7: when the deferred power-down callback runs with a nonzero refcount
or with `powered` already false, it only takes and releases the lock: no
hook, no clock disable, no gating, no parent idle, and the whole chain's
state is unchanged. -/
theorem powerdown_callback_noop_when_busy (m : NvMod) (rest : List NvMod) (still : Bool)
    (h : ¬ (m.st.refcount = 0 ∧ m.st.powered = true)) :
    powerdown_handler (m :: rest) still =
      some (m :: rest, [Event.lockEv m.mid, Event.unlockEv m.mid]) :=
  powerdown_handler_noop m rest still h

/-- C7 witness at a concrete racing state. -/
theorem powerdown_callback_noop_when_busy_witness :
    (¬ (c7mod.st.refcount = 0 ∧ c7mod.st.powered = true)) ∧
    powerdown_handler [c7mod] true = some ([c7mod], [Event.lockEv 3, Event.unlockEv 3]) :=
  ⟨by decide, powerdown_callback_noop_when_busy c7mod [] true (by decide)⟩

/-- C10: `nvhost_module_set_rate` on a clock index whose handle is NULL
returns `-EINVAL` (the update-rate step rejects it), issues no
`clk_set_rate`, and leaves the applied rates unchanged. -/
theorem set_rate_no_clock_einval (rm : RegModule) (priv rate index : Nat)
    (h : rm.clkOk.getD index false = false) :
    (nvhost_module_set_rate rm priv rate index).2.2 = Except.error () ∧
    (nvhost_module_set_rate rm priv rate index).2.1 = [] ∧
    (nvhost_module_set_rate rm priv rate index).1.applied = rm.applied := by
  simp only [nvhost_module_set_rate, nvhost_module_update_rate]
  rw [if_pos h]
  exact ⟨rfl, rfl, rfl⟩

/-- C10 witness at a concrete module with a NULL clock handle. -/
theorem set_rate_no_clock_einval_witness :
    (c10rm.clkOk.getD 0 false = false) ∧
    ((nvhost_module_set_rate c10rm 1 100 0).2.2 = Except.error () ∧
     (nvhost_module_set_rate c10rm 1 100 0).2.1 = [] ∧
     (nvhost_module_set_rate c10rm 1 100 0).1.applied = c10rm.applied) :=
  ⟨by decide, set_rate_no_clock_einval c10rm 1 100 0 (by decide)⟩

/-- C3: the power-up sequence of `nvhost_module_busy` runs exactly when the
call observes a pre-increment refcount of 0 and `powered` false — the
finalize-power-on hook fires iff that condition holds, the module is
powered afterwards, and a `busy()` on an already-powered module only locks,
cancels the pending work, runs the busy hook, increments and unlocks,
re-running neither the power-up sequence nor the hook. -/
theorem busy_powerup_exactly_on_off_transition (m : NvMod) (rest : List NvMod)
    (hF : m.desc.hasFinalize = true) :
    (Event.finalizePoweronEv m.mid ∈ (nvhost_module_busy (m :: rest)).2 ↔
      (m.st.refcount = 0 ∧ m.st.powered = false)) ∧
    (m.st.refcount = 0 → m.st.powered = false →
      headPowered (nvhost_module_busy (m :: rest)).1 = true) ∧
    (m.st.powered = true →
      nvhost_module_busy (m :: rest) =
        ({ m with st := { m.st with refcount := m.st.refcount + 1, workPending := false } } :: rest,
         [Event.lockEv m.mid, Event.cancelEv m.mid] ++
           (if m.desc.hasBusyHook then [Event.busyHookEv m.mid] else []) ++
           [Event.unlockEv m.mid])) := by
  by_cases hc : (m.st.refcount + 1 = 1 ∧ m.st.powered = false)
  · have h0 : m.st.refcount = 0 := by have := hc.1; omega
    refine ⟨?_, ?_, ?_⟩
    · constructor
      · intro _; exact ⟨h0, hc.2⟩
      · intro _
        simp [nvhost_module_busy, h0, hc.2, hF]
    · intro _ _
      simp [nvhost_module_busy, h0, hc.2, headPowered]
    · intro hp
      rw [hc.2] at hp
      exact absurd hp (by simp)
  · have hc2 : ¬ (m.st.refcount = 0 ∧ m.st.powered = false) :=
      fun hx => hc ⟨by have := hx.1; omega, hx.2⟩
    refine ⟨?_, ?_, ?_⟩
    · constructor
      · intro hmem
        exfalso
        by_cases hb : m.desc.hasBusyHook = true
        · simp [nvhost_module_busy, hc2, hb] at hmem
        · simp [nvhost_module_busy, hc2, hb] at hmem
      · intro hco; exact absurd hco hc2
    · intro h0 hp; exact absurd ⟨h0, hp⟩ hc2
    · intro hp
      simp [nvhost_module_busy, hc2]

/-- C3 witness at a concrete idle, unpowered module. -/
theorem busy_powerup_exactly_on_off_transition_witness :
    (m3.desc.hasFinalize = true) ∧
    ((Event.finalizePoweronEv m3.mid ∈ (nvhost_module_busy [m3]).2 ↔
        (m3.st.refcount = 0 ∧ m3.st.powered = false)) ∧
      (m3.st.refcount = 0 → m3.st.powered = false →
        headPowered (nvhost_module_busy [m3]).1 = true) ∧
      (m3.st.powered = true →
        nvhost_module_busy [m3] =
          ({ m3 with st := { m3.st with refcount := m3.st.refcount + 1, workPending := false } } :: [],
           [Event.lockEv m3.mid, Event.cancelEv m3.mid] ++
             (if m3.desc.hasBusyHook then [Event.busyHookEv m3.mid] else []) ++
             [Event.unlockEv m3.mid]))) :=
  ⟨rfl, busy_powerup_exactly_on_off_transition m3 [] rfl⟩

/-- C4 counterexample: on a concrete child/parent pair the deferred
power-down callback takes the parent's lock (to run `idle(1)` on it)
strictly before it releases the child's lock, so the two locks are held
simultaneously — refuting the claim that the parent idle happens only
after the child's lock is released. -/
theorem powerdown_parent_idled_under_child_lock_cex :
    (powerdown_handler [c4c, c4p] false).isSome = true ∧
    parentLockedInsideChild 0 1 ((powerdown_handler [c4c, c4p] false).getD ([], [])).2 := by
  constructor
  · decide
  · decide

/-- C4 (amended): whenever the deferred power-down callback actually powers
the module off (refcount 0, powered, hook not refusing) and a parent
exists, the parent's `idle(1)` — and with it the parent's lock — is taken
inside the child's lock region: the parent's lock event precedes the
child's unlock event in the callback's trace. -/
theorem powerdown_parent_idle_inside_lock (m p : NvMod) (rest : List NvMod)
    (still : Bool) (pr : List NvMod × List Event)
    (hRc : m.st.refcount = 0) (hP : m.st.powered = true)
    (hNoRefuse : ¬ (m.desc.hasPrepare = true ∧ still = true))
    (hPar : nvhost_module_idle (p :: rest) = some pr) :
    powerdown_handler (m :: p :: rest) still =
      some ({ m with st := { m.st with powered := false } } :: pr.1,
        [Event.lockEv m.mid] ++
          (if m.desc.hasPrepare then [Event.preparePoweroffEv m.mid] else []) ++
          clock_disable m ++ powergate m ++ pr.2 ++ [Event.unlockEv m.mid]) ∧
    parentLockedInsideChild m.mid p.mid
      ([Event.lockEv m.mid] ++
        (if m.desc.hasPrepare then [Event.preparePoweroffEv m.mid] else []) ++
        clock_disable m ++ powergate m ++ pr.2 ++ [Event.unlockEv m.mid]) := by
  constructor
  · rw [powerdown_handler, if_pos ⟨hRc, hP⟩, if_neg hNoRefuse, hPar]
  · obtain ⟨t, ht⟩ := idle_mult_trace_head p rest 1 pr hPar
    unfold parentLockedInsideChild
    simp only [List.append_assoc, ht, List.cons_append, List.nil_append]
    rw [beforeUnlock,
      if_neg (show ¬ (Event.lockEv m.mid = Event.unlockEv m.mid) by simp)]
    rw [beforeUnlock_append m.mid _ _ (unlock_notin_prep m.mid m)]
    rw [beforeUnlock_append m.mid _ _ (unlock_notin_clock_disable m.mid m)]
    rw [beforeUnlock_append m.mid _ _ (unlock_notin_powergate m.mid m)]
    rw [beforeUnlock,
      if_neg (show ¬ (Event.lockEv p.mid = Event.unlockEv m.mid) by simp)]
    exact List.mem_cons_of_mem _ (List.mem_append_right _ (List.mem_append_right _
      (List.mem_append_right _ (List.mem_cons_self _ _))))

/-- C4 amended-claim witness at the concrete child/parent pair. -/
theorem powerdown_parent_idle_inside_lock_witness :
    (c4c.st.refcount = 0 ∧ c4c.st.powered = true ∧
      (¬ (c4c.desc.hasPrepare = true ∧ false = true)) ∧
      nvhost_module_idle [c4p] = some c4pr) ∧
    (powerdown_handler [c4c, c4p] false =
      some ({ c4c with st := { c4c.st with powered := false } } :: c4pr.1,
        [Event.lockEv c4c.mid] ++
          (if c4c.desc.hasPrepare then [Event.preparePoweroffEv c4c.mid] else []) ++
          clock_disable c4c ++ powergate c4c ++ c4pr.2 ++ [Event.unlockEv c4c.mid]) ∧
      parentLockedInsideChild c4c.mid c4p.mid
        ([Event.lockEv c4c.mid] ++
          (if c4c.desc.hasPrepare then [Event.preparePoweroffEv c4c.mid] else []) ++
          clock_disable c4c ++ powergate c4c ++ c4pr.2 ++ [Event.unlockEv c4c.mid])) :=
  ⟨⟨rfl, rfl, by decide, by decide⟩,
   powerdown_parent_idle_inside_lock c4c c4p [] false c4pr rfl rfl (by decide) (by decide)⟩

/-- C6: with refcount 0, the module powered and the deferred work armed, a
prepare-power-off hook that refuses `k` consecutive times makes the
callback re-arm itself with the same configured delay exactly `k` times,
each round leaving the chain — in particular `powered = true` — exactly as
it was; the final permitting round then disables clocks, gates the domain,
clears `powered` and idles the parent. -/
theorem powerdown_retry_k_reschedules (m : NvMod) (rest : List NvMod)
    (pr : List NvMod × List Event) (k : Nat)
    (hRc : m.st.refcount = 0) (hP : m.st.powered = true)
    (hPrep : m.desc.hasPrepare = true) (hW : m.st.workPending = true)
    (hPar : nvhost_module_idle rest = some pr) :
    runRefusals (m :: rest) k = some (m :: rest, (List.replicate k (refusalTr m)).flatten) ∧
    runPowerdownK (m :: rest) k =
      some ({ m with st := { m.st with powered := false } } :: pr.1,
        (List.replicate k (refusalTr m)).flatten ++
          ([Event.lockEv m.mid, Event.preparePoweroffEv m.mid] ++
            clock_disable m ++ powergate m ++ pr.2 ++ [Event.unlockEv m.mid])) ∧
    (List.replicate k (refusalTr m)).flatten.count
        (Event.scheduleEv m.mid m.desc.powerdownDelay) = k := by
  refine ⟨runRefusals_fixed m rest hRc hP hPrep hW k, ?_, count_sched_join m k⟩
  have hfin : powerdown_handler (m :: rest) false =
      some ({ m with st := { m.st with powered := false } } :: pr.1,
        [Event.lockEv m.mid, Event.preparePoweroffEv m.mid] ++
          clock_disable m ++ powergate m ++ pr.2 ++ [Event.unlockEv m.mid]) := by
    simp [powerdown_handler, hRc, hP, hPrep, hPar]
  simp only [runPowerdownK, runRefusals_fixed m rest hRc hP hPrep hW k, hfin]

/-- C6 witness: two refusals then a successful power-off, on a concrete
module with a parent. -/
theorem powerdown_retry_k_reschedules_witness :
    (m6.st.refcount = 0 ∧ m6.st.powered = true ∧ m6.desc.hasPrepare = true ∧
      m6.st.workPending = true ∧ nvhost_module_idle [p6] = some pr6) ∧
    (runRefusals [m6, p6] 2 = some ([m6, p6], (List.replicate 2 (refusalTr m6)).flatten) ∧
      runPowerdownK [m6, p6] 2 =
        some ({ m6 with st := { m6.st with powered := false } } :: pr6.1,
          (List.replicate 2 (refusalTr m6)).flatten ++
            ([Event.lockEv m6.mid, Event.preparePoweroffEv m6.mid] ++
              clock_disable m6 ++ powergate m6 ++ pr6.2 ++ [Event.unlockEv m6.mid])) ∧
      (List.replicate 2 (refusalTr m6)).flatten.count
          (Event.scheduleEv m6.mid m6.desc.powerdownDelay) = 2) :=
  ⟨⟨rfl, rfl, rfl, rfl, by decide⟩,
   powerdown_retry_k_reschedules m6 [p6] pr6 2 rfl rfl rfl rfl (by decide)⟩

/-- C8: suspend on a module whose refcount is already 0 and whose `powered`
flag is already false returns successfully — the final still-powered
assertion does not fire — and its trace holds no prepare-power-off hook
event, no clock disable and no gating. -/
theorem suspend_noop_when_idle_unpowered (m : NvMod) (rest : List NvMod)
    (system still : Bool)
    (hRc : m.st.refcount = 0) (hP : m.st.powered = false) :
    ∃ res, nvhost_module_suspend m rest system still = some res ∧
      ∀ e ∈ res.2, isPowerOffEv e = false := by
  have hno : ¬ (({ m with st := { m.st with workPending := false } } : NvMod).st.refcount = 0 ∧
      ({ m with st := { m.st with workPending := false } } : NvMod).st.powered = true) := by
    simp [hP]
  have he0 : ¬ (system = true ∧ ¬ m.st.refcount = 0) := by simp [hRc]
  have he1 : ¬ (¬ m.st.refcount = 0) := by simp [hRc]
  by_cases hw : m.st.workPending = true
  · refine ⟨({ m with st := { m.st with workPending := false } } :: rest,
      [Event.lockEv m.mid, Event.unlockEv m.mid] ++
        (if m.desc.hasSuspendHook then [Event.suspendHookEv m.mid] else [])), ?_, ?_⟩
    · unfold nvhost_module_suspend
      rw [if_pos hw, powerdown_handler_noop _ rest still hno]
      simp [headPowered, hP, he0, he1]
    · intro e he
      by_cases hs : m.desc.hasSuspendHook = true
      · simp [hs] at he
        rcases he with rfl | rfl | rfl <;> rfl
      · simp [hs] at he
        rcases he with rfl | rfl <;> rfl
  · refine ⟨(m :: rest,
      (if m.desc.hasSuspendHook then [Event.suspendHookEv m.mid] else [])), ?_, ?_⟩
    · unfold nvhost_module_suspend
      rw [if_neg hw]
      simp [headPowered, hP, he0, he1]
    · intro e he
      by_cases hs : m.desc.hasSuspendHook = true
      · simp [hs] at he
        subst he
        rfl
      · simp [hs] at he

/-- C8 witness at a concrete idle, unpowered module with a pending work
item and a suspend hook. -/
theorem suspend_noop_when_idle_unpowered_witness :
    (m8.st.refcount = 0 ∧ m8.st.powered = false) ∧
    (∃ res, nvhost_module_suspend m8 [] true true = some res ∧
      ∀ e ∈ res.2, isPowerOffEv e = false) :=
  ⟨⟨rfl, rfl⟩, suspend_noop_when_idle_unpowered m8 [] true true rfl rfl⟩

/-- C9: `nvhost_module_get_rate` fails with `-EINVAL` and changes nothing
when the clock handle at `index` is NULL or an error pointer; otherwise it
marks the module busy — after which the module is powered, so the rate is
read live — returns that rate with success, and the module's refcount ends
equal to its value before the call. -/
theorem get_rate_temporarily_busy (m : NvMod) (rest : List NvMod) (index : Nat)
    (hInv : m.st.powered = true ∨ m.st.refcount = 0) :
    (m.clk.getD index none = none →
      nvhost_module_get_rate m rest index = some (m :: rest, [], Except.error ())) ∧
    (∀ r, m.clk.getD index none = some r →
      headPowered (nvhost_module_busy (m :: rest)).1 = true ∧
      ∃ ch tr, nvhost_module_get_rate m rest index = some (ch, tr, Except.ok r) ∧
        headRefcount ch = m.st.refcount) := by
  constructor
  · intro h
    unfold nvhost_module_get_rate
    rw [h]
  · intro r hr
    refine ⟨busy_head_powered m rest hInv, ?_⟩
    obtain ⟨ch2, e2, hid, hcnt⟩ := idle_after_busy m rest hInv
    refine ⟨ch2, (nvhost_module_busy (m :: rest)).2 ++ e2, ?_, hcnt⟩
    unfold nvhost_module_get_rate
    rw [hr]
    simp only [busy_headClk m rest index, hr, hid, Option.getD_some]

/-- Reading back a freshly set list slot. -/
lemma getD_set_self (l : List Nat) (i a : Nat) (h : i < l.length) :
    (l.set i a).getD i 0 = a := by
  induction l generalizing i with
  | nil => simp at h
  | cons x t ih =>
    cases i with
    | zero => rfl
    | succ j => exact ih j (by simpa using h)

/-- Setting one slot leaves the others readable as before. -/
lemma getD_set_ne (l : List Nat) (i j a : Nat) (h : i ≠ j) :
    (l.set j a).getD i 0 = l.getD i 0 := by
  induction l generalizing i j with
  | nil => rfl
  | cons x t ih =>
    cases j with
    | zero =>
      cases i with
      | zero => exact absurd rfl h
      | succ i2 => rfl
    | succ j2 =>
      cases i with
      | zero => rfl
      | succ i2 => exact ih i2 j2 (fun hx => h (by rw [hx]))

/-- `nvhost_module_update_rate` touches only the applied rate: clients,
clock validity, the rounding and default primitives and the applied list's
length are untouched. -/
lemma update_rate_fields (rm : RegModule) (i : Nat) :
    (nvhost_module_update_rate rm i).1.clients = rm.clients ∧
    (nvhost_module_update_rate rm i).1.clkOk = rm.clkOk ∧
    (nvhost_module_update_rate rm i).1.roundRate = rm.roundRate ∧
    (nvhost_module_update_rate rm i).1.defaultRate = rm.defaultRate ∧
    (nvhost_module_update_rate rm i).1.applied.length = rm.applied.length := by
  unfold nvhost_module_update_rate
  split
  · exact ⟨rfl, rfl, rfl, rfl, rfl⟩
  · refine ⟨rfl, rfl, rfl, rfl, ?_⟩
    simp

/-- On a valid clock, `nvhost_module_update_rate` succeeds and applies the
maximum vote, or the rounded default when that maximum is zero. -/
lemma update_rate_applied (rm : RegModule) (i : Nat)
    (hclk : rm.clkOk.getD i false = true) (hlen : i < rm.applied.length) :
    (nvhost_module_update_rate rm i).1.applied.getD i 0 =
      maxVoteOrDefault rm rm.clients i ∧
    (nvhost_module_update_rate rm i).2.2 = Except.ok () := by
  unfold nvhost_module_update_rate
  rw [if_neg (by rw [hclk]; simp)]
  constructor
  · show (rm.applied.set i _).getD i 0 = _
    rw [getD_set_self _ _ _ hlen]
    rfl
  · rfl

/-- `nvhost_module_update_rate` at one index leaves the applied rate of any
other index unchanged. -/
lemma update_rate_applied_ne (rm : RegModule) (i j : Nat) (h : i ≠ j) :
    (nvhost_module_update_rate rm j).1.applied.getD i 0 = rm.applied.getD i 0 := by
  unfold nvhost_module_update_rate
  split
  · rfl
  · exact getD_set_ne _ _ _ _ h

/-- The rate-update loop preserves clients, clock validity, the primitives
and the applied list's length. -/
lemma updateAllRates_fields (l : List Nat) : ∀ rm : RegModule,
    (updateAllRates rm l).1.clients = rm.clients ∧
    (updateAllRates rm l).1.clkOk = rm.clkOk ∧
    (updateAllRates rm l).1.roundRate = rm.roundRate ∧
    (updateAllRates rm l).1.defaultRate = rm.defaultRate ∧
    (updateAllRates rm l).1.applied.length = rm.applied.length := by
  induction l with
  | nil => intro rm; exact ⟨rfl, rfl, rfl, rfl, rfl⟩
  | cons j t ih =>
    intro rm
    obtain ⟨hc, hk, hr, hd, hl⟩ := ih (nvhost_module_update_rate rm j).1
    obtain ⟨hc1, hk1, hr1, hd1, hl1⟩ := update_rate_fields rm j
    simp only [updateAllRates]
    exact ⟨hc.trans hc1, hk.trans hk1, hr.trans hr1, hd.trans hd1, hl.trans hl1⟩

/-- The rate-update loop leaves indices it does not visit unchanged. -/
lemma updateAllRates_applied_notmem (l : List Nat) : ∀ (rm : RegModule) (i : Nat), i ∉ l →
    (updateAllRates rm l).1.applied.getD i 0 = rm.applied.getD i 0 := by
  induction l with
  | nil => intro rm i _; rfl
  | cons j t ih =>
    intro rm i h
    have hij : i ≠ j := fun hx => h (hx ▸ List.mem_cons_self j t)
    simp only [updateAllRates]
    rw [ih _ i (fun hx => h (List.mem_cons_of_mem j hx)), update_rate_applied_ne rm i j hij]

/-- After the rate-update loop visits a valid clock index once, that index's
applied rate is the maximum vote (or the rounded default). -/
lemma updateAllRates_applied_mem (l : List Nat) : ∀ (rm : RegModule) (i : Nat),
    i ∈ l → l.Nodup → rm.clkOk.getD i false = true → i < rm.applied.length →
    (updateAllRates rm l).1.applied.getD i 0 = maxVoteOrDefault rm rm.clients i := by
  induction l with
  | nil => intro rm i h _ _ _; simp at h
  | cons j t ih =>
    intro rm i hmem hnd hclk hlen
    simp only [updateAllRates]
    by_cases hij : i = j
    · subst hij
      have hit : i ∉ t := (List.nodup_cons.mp hnd).1
      rw [updateAllRates_applied_notmem t _ i hit]
      exact (update_rate_applied rm i hclk hlen).1
    · have hit : i ∈ t := by
        rcases List.mem_cons.mp hmem with h | h
        · exact absurd h hij
        · exact h
      obtain ⟨hc1, hk1, hr1, hd1, hl1⟩ := update_rate_fields rm j
      have hres := ih (nvhost_module_update_rate rm j).1 i hit (List.nodup_cons.mp hnd).2
        (by rw [hk1]; exact hclk) (by rw [hl1]; exact hlen)
      rw [hres]
      unfold maxVoteOrDefault
      rw [hc1, hr1, hd1]

/-- C5 counterexample: after `add_client(0)`, `set_rate(0, 5, clock 0)` and
then `add_client(1)`, the clock still runs at 5 while the maximum of the
current votes is 10 — `add_client` appends a default-voting record without
reapplying any rate, so the invariant does not hold after it. -/
theorem add_client_leaves_stale_rate :
    c5m3.applied.getD 0 0 = 5 ∧ maxVote c5m3.clients 0 = 10 ∧
    maxVoteOrDefault c5m3 c5m3.clients 0 = 10 ∧
    ¬ c5m3.applied.getD 0 0 = maxVoteOrDefault c5m3 c5m3.clients 0 := by
  refine ⟨?_, ?_, ?_, ?_⟩ <;> decide

/-- C5 (amended): after a completed `set_rate` on a backed clock index the
applied rate of that index equals the maximum of the current votes when
that maximum is nonzero, and otherwise the rounded default; the same holds
for every backed clock index after `remove_client`.  `add_client` does not
reapply rates, so the property is not restored by it (see the
counterexample). -/
theorem rate_applied_is_max_or_default (rm : RegModule) (priv rate index : Nat)
    (hclk : rm.clkOk.getD index false = true)
    (hlen : index < rm.applied.length) :
    ((nvhost_module_set_rate rm priv rate index).2.2 = Except.ok () ∧
      (nvhost_module_set_rate rm priv rate index).1.applied.getD index 0 =
        maxVoteOrDefault rm (nvhost_module_set_rate rm priv rate index).1.clients index) ∧
    (index < rm.numClks →
      (nvhost_module_remove_client rm priv).1.clients = removeFirst rm.clients priv ∧
      (nvhost_module_remove_client rm priv).1.applied.getD index 0 =
        maxVoteOrDefault rm (removeFirst rm.clients priv) index) := by
  constructor
  · have heq : nvhost_module_set_rate rm priv rate index =
        nvhost_module_update_rate
          { rm with clients := (updateFirst rm.clients priv (fun c => { c with rate := c.rate.set index (rm.roundRate index rate) })) }
          index := rfl
    obtain ⟨ha, hok⟩ := update_rate_applied
      { rm with clients := (updateFirst rm.clients priv (fun c => { c with rate := c.rate.set index (rm.roundRate index rate) })) }
      index hclk hlen
    have hcli := (update_rate_fields
      { rm with clients := (updateFirst rm.clients priv (fun c => { c with rate := c.rate.set index (rm.roundRate index rate) })) }
      index).1
    rw [heq]
    exact ⟨hok, by rw [hcli, ha]; rfl⟩
  · intro hidx
    have heq2 : nvhost_module_remove_client rm priv =
        updateAllRates { rm with clients := removeFirst rm.clients priv }
          (List.range rm.numClks) := rfl
    rw [heq2]
    refine ⟨(updateAllRates_fields (List.range rm.numClks)
      { rm with clients := removeFirst rm.clients priv }).1, ?_⟩
    exact updateAllRates_applied_mem (List.range rm.numClks)
      { rm with clients := removeFirst rm.clients priv } index
      (List.mem_range.mpr hidx) (List.nodup_range _) hclk hlen

/-- C5 amended-claim witness at a concrete two-clock module. -/
theorem rate_applied_is_max_or_default_witness :
    (c5w.clkOk.getD 0 false = true ∧ 0 < c5w.applied.length) ∧
    (((nvhost_module_set_rate c5w 1 4 0).2.2 = Except.ok () ∧
        (nvhost_module_set_rate c5w 1 4 0).1.applied.getD 0 0 =
          maxVoteOrDefault c5w (nvhost_module_set_rate c5w 1 4 0).1.clients 0) ∧
      (0 < c5w.numClks →
        (nvhost_module_remove_client c5w 1).1.clients = removeFirst c5w.clients 1 ∧
        (nvhost_module_remove_client c5w 1).1.applied.getD 0 0 =
          maxVoteOrDefault c5w (removeFirst c5w.clients 1) 0)) :=
  ⟨⟨by decide, by decide⟩,
   rate_applied_is_max_or_default c5w 1 4 0 (by decide) (by decide)⟩

/-- C9 witness at a concrete idle module with one clock at rate 5. -/
theorem get_rate_temporarily_busy_witness :
    (cl9.st.powered = true ∨ cl9.st.refcount = 0) ∧
    ((cl9.clk.getD 0 none = none →
        nvhost_module_get_rate cl9 [] 0 = some (cl9 :: [], [], Except.error ())) ∧
      (∀ r, cl9.clk.getD 0 none = some r →
        headPowered (nvhost_module_busy (cl9 :: [])).1 = true ∧
        ∃ ch tr, nvhost_module_get_rate cl9 [] 0 = some (ch, tr, Except.ok r) ∧
          headRefcount ch = cl9.st.refcount)) :=
  ⟨Or.inr rfl, get_rate_temporarily_busy cl9 [] 0 (Or.inr rfl)⟩

end NvhostAcm
